import Mathlib

/-!
Verification of the Concize session / pipeline / chat backend.

This file gives a shallow embedding of the backend's core logic and proves
(or refutes) the specification's claims about it.  The embedding follows
the current revisions of the source files:

* `src/backend/db/cloudinary-utils/audio.db.js` (the concatenated
  `transcription.db.js` part): the MongoDB meeting store operations
  `createTranscription`, `appendTranscription`, `updateMeetingStatus`,
  `getMeetingStatus`.
* `src/backend/controllers/worker.js` (second revision, lines 263-416):
  the queue-consume handler, modelled as a function of a message, an
  environment of external-call outcomes, and the meeting store, returning
  the updated store and a trace of queue/blob effects.
* `src/backend/routes/meetingRoutes.js`: the `/stop` route.
* `src/unnamed/part_005` (`queryVectordb.js`): session-scoped vector search.
* `src/backend/controllers/chatLLM.js` (second revision, lines 202-365):
  the streaming RAG chat orchestrator with its retry loop.

External collaborators (Cloudinary, RabbitMQ, Groq, Gemini, Qdrant) are
modelled through their call contracts; each possible outcome of a call is
an explicit field of an environment record, so theorems quantify over all
outcomes.
-/

namespace Concize

/-! ## Meeting store (src/backend/db/cloudinary-utils/audio.db.js,
    transcription.db.js part, and meeting.model.js) -/

/-- One document of the `transcriptions` collection (meeting.model.js):
`jobId` (unique), `status ∈ {in-progress, completed}` with default
`in-progress`, and the ordered list `transcriptionChunks`. -/
structure Meeting where
  jobId : String
  status : String
  transcriptionChunks : List String
  deriving Repr, DecidableEq

/-- The `transcriptions` collection, as a list of documents. -/
abbrev MeetingStore := List Meeting

/-- Function `createTranscription` (transcription.db.js lines 214-226): inserts a new
document for `jobId` with the schema defaults (`status = "in-progress"`,
no chunks) and returns `true`; on a db error returns `false` leaving the
store unchanged. -/
def createTranscription (dbFails : Bool) (store : MeetingStore) (jobId : String) :
    MeetingStore × Bool :=
  if dbFails then (store, false)
  else (store ++ [⟨jobId, "in-progress", []⟩], true)

/-- Helper for `findOneAndUpdate` with `$push`: pushes `text` onto the
chunks of the first document matching `jobId`. -/
def pushChunk (store : MeetingStore) (jobId text : String) : MeetingStore :=
  match store with
  | [] => []
  | m :: rest =>
      if m.jobId = jobId then
        { m with transcriptionChunks := m.transcriptionChunks ++ [text] } :: rest
      else
        m :: pushChunk rest jobId text

/-- Function `appendTranscription` (transcription.db.js lines 234-253):
`findOneAndUpdate({jobId}, {$push: {transcriptionChunks: newText}})`.
Returns `true` iff a document was found and updated; a thrown db error is
caught and yields `false` with no update. -/
def appendTranscription (dbFails : Bool) (store : MeetingStore) (jobId text : String) :
    MeetingStore × Bool :=
  if dbFails then (store, false)
  else
    match store.find? (fun m => m.jobId = jobId) with
    | some _ => (pushChunk store jobId text, true)
    | none => (store, false)

/-- Helper for `findOneAndUpdate` setting `status`. -/
def setStatus (store : MeetingStore) (jobId newStatus : String) : MeetingStore :=
  match store with
  | [] => []
  | m :: rest =>
      if m.jobId = jobId then { m with status := newStatus } :: rest
      else m :: setStatus rest jobId newStatus

/-- Function `updateMeetingStatus` (transcription.db.js lines 261-273):
`findOneAndUpdate({jobId}, {status: newStatus})`; returns `true` iff a
document was found; a thrown db error is caught and yields `false`. -/
def updateMeetingStatus (dbFails : Bool) (store : MeetingStore) (jobId newStatus : String) :
    MeetingStore × Bool :=
  if dbFails then (store, false)
  else
    match store.find? (fun m => m.jobId = jobId) with
    | some _ => (setStatus store jobId newStatus, true)
    | none => (store, false)

/-- Function `getMeetingStatus` (transcription.db.js lines 280-288): returns the
document's status, or `none` when the document does not exist, or `none`
when the lookup itself throws (the catch block returns `null`). -/
def getMeetingStatus (lookupFails : Bool) (store : MeetingStore) (jobId : String) :
    Option String :=
  if lookupFails then none
  else (store.find? (fun m => m.jobId = jobId)).map (fun m => m.status)

/-- JavaScript string trim, modelled directly on the string's
character list (whitespace stripped from both ends); the byte-position
implementation of the core library's trim does not reduce in the kernel,
so it is avoided. -/
def strTrim (s : String) : String :=
  ⟨((s.data.dropWhile Char.isWhitespace).reverse.dropWhile Char.isWhitespace).reverse⟩

/-! ## Pipeline worker (src/backend/controllers/worker.js, second revision) -/

/-- Queue/blob side effects emitted by the consume handler, in order. -/
inductive WEffect where
  | deleteBlob (fileId : String)
  | ack
  | nack (requeue : Bool)
  deriving Repr, DecidableEq

/-- A queue message as the handler parses it: whether `JSON.parse`
succeeds, and the `jobId` / `fileId` fields (the latter absent e.g. for
the `/stop` route's termination message). -/
structure JobMsg where
  parseOk : Bool
  jobId : String
  fileId : Option String
  deriving Repr, DecidableEq

/-- Outcomes of the external calls made while processing one job.
Each field fixes the outcome of one call site in the consume handler. -/
structure JobEnv where
  /-- Whether `getMeetingStatus` throws internally (it then returns `null`). -/
  statusLookupFails : Bool
  /-- Whether `fetchAudioFile` resolves (otherwise it throws). -/
  fetchOk : Bool
  /-- Whether `transcribe` throws. -/
  transcribeThrows : Bool
  /-- Whether `transcribe` resolves with `success: true`. -/
  transcribeSuccess : Bool
  /-- The transcription text returned on success. -/
  transcribedText : String
  /-- The MongoDB append throws internally (it then returns `false`). -/
  appendDbFails : Bool
  /-- Whether `clean` throws. -/
  cleanThrows : Bool
  /-- The `refined_text` of the chunks returned by `clean`. -/
  cleanedChunks : List String
  /-- Whether `upsertTranscriptionChunks` resolves with `success: true`. -/
  embedOk : Bool
  /-- Whether `deleteAudioFile` throws (Cloudinary destroy rejects). -/
  deleteFails : Bool
  deriving Repr, DecidableEq

/-- The catch block (worker.js lines 381-411): delete the blob if `fileId`
is set (ignoring a failure of the delete itself), then
`nack(msg, false, false)` — no requeue. -/
def failPath (env : JobEnv) (store : MeetingStore) (fileId : String) :
    MeetingStore × List WEffect :=
  if env.deleteFails then (store, [WEffect.nack false])
  else (store, [WEffect.deleteBlob fileId, WEffect.nack false])

/-- End of the success path (worker.js lines 369-380): delete the blob,
then `ack`.  If the delete throws, control moves to the catch block,
which retries the delete (failing again) and nacks without requeue. -/
def finishPath (env : JobEnv) (store : MeetingStore) (fileId : String) :
    MeetingStore × List WEffect :=
  if env.deleteFails then (store, [WEffect.nack false])
  else (store, [WEffect.deleteBlob fileId, WEffect.ack])

/-- The clean-and-embed block (worker.js lines 340-361), entered only for
non-empty transcription text: `clean` may throw; if it returns a
non-empty chunk list, `upsertTranscriptionChunks` runs and a
`success: false` result is thrown. -/
def cleanEmbedPath (env : JobEnv) (store : MeetingStore) (fileId : String) :
    MeetingStore × List WEffect :=
  if env.cleanThrows then failPath env store fileId
  else if env.cleanedChunks.isEmpty then finishPath env store fileId
  else if env.embedOk then finishPath env store fileId
  else failPath env store fileId

/-- The consume handler of the current worker revision
(worker.js lines 263-416), as a function of the message, the external
outcomes and the meeting store.  Returns the updated store and the
ordered queue/blob effects. -/
def processJob (env : JobEnv) (msg : JobMsg) (store : MeetingStore) :
    MeetingStore × List WEffect :=
  if msg.parseOk = false then
    -- JSON.parse throws before fileId is assigned, so the catch block
    -- skips the delete and only nacks without requeue.
    (store, [WEffect.nack false])
  else
    -- lines 289-298: skip the job when the meeting is already completed
    if getMeetingStatus env.statusLookupFails store msg.jobId = some "completed" then
      match msg.fileId with
      | some f =>
          if env.deleteFails then (store, [WEffect.nack false])
          else (store, [WEffect.deleteBlob f, WEffect.ack])
      | none => (store, [WEffect.nack false])
    else
      match msg.fileId with
      | none =>
          -- fetchAudioFile throws on a missing publicId; catch block
          -- sees a falsy fileId and only nacks.
          (store, [WEffect.nack false])
      | some f =>
          if env.fetchOk = false then failPath env store f
          else if env.transcribeThrows then failPath env store f
          else if env.transcribeSuccess = false then failPath env store f
          else if strTrim env.transcribedText ≠ "" then
            -- lines 322-337: append, throwing when the append reports failure
            match appendTranscription env.appendDbFails store msg.jobId
                env.transcribedText with
            | (store1, true) => cleanEmbedPath env store1 f
            | (store1, false) => failPath env store1 f
          else
            -- empty transcription: skip both the append and the
            -- clean/embed block (both share the same guard)
            finishPath env store f

/-! ## Interleaving of one worker job with a stop request (claim C1)

The consume handler checks the session status once, at the start of
processing (worker.js line 290), before fetching and transcribing the
audio; the append (line 324) runs later with no further check.  To reason
about a `stop` that interleaves with an in-flight job, we split the
happy-path handler into atomic stages and let a stop action (the
idempotent transition to `completed`, i.e. `updateMeetingStatus`,
transcription.db.js lines 261-273) interleave freely. -/

/-- Joint state of the meeting store, the worker's progress through one
job, its emitted effects, and whether the stop call has returned. -/
structure SysState where
  store : MeetingStore
  trace : List WEffect
  wpc : Nat
  stopReturned : Bool
  deriving Repr, DecidableEq

/-- One atomic action of the interleaved system. -/
inductive SysAction where
  | workerStep
  | stopCall
  deriving Repr, DecidableEq

/-- One stage of the consume handler for a job on session `jobId` with
blob `fileId`, under externally successful calls producing `text`:
stage 0 is the status check (lines 289-298), stage 1 the fetch and
transcription (lines 304-320), stage 2 the append (lines 322-337),
stage 3 the clean/embed/delete/ack tail (lines 339-380); 4 is done. -/
def wstep (jobId fileId text : String) (s : SysState) : SysState :=
  match s.wpc with
  | 0 =>
      if getMeetingStatus false s.store jobId = some "completed" then
        { s with wpc := 4,
                 trace := s.trace ++ [WEffect.deleteBlob fileId, WEffect.ack] }
      else { s with wpc := 1 }
  | 1 => { s with wpc := 2 }
  | 2 =>
      let r := appendTranscription false s.store jobId text
      if r.2 then { s with wpc := 3, store := r.1 }
      else
        -- append reports failure: the handler throws into the catch block
        { s with wpc := 4, store := r.1,
                 trace := s.trace ++ [WEffect.deleteBlob fileId, WEffect.nack false] }
  | 3 => { s with wpc := 4,
                  trace := s.trace ++ [WEffect.deleteBlob fileId, WEffect.ack] }
  | _ => s

/-- The stop operation: the idempotent `active → completed` transition of
the session, performed by `updateMeetingStatus(jobId, "completed")`;
after it, the stop call has returned. -/
def stopCallStep (jobId : String) (s : SysState) : SysState :=
  { s with store := (updateMeetingStatus false s.store jobId "completed").1,
           stopReturned := true }

/-- One action of the interleaved system. -/
def sysStep (jobId fileId text : String) (a : SysAction) (s : SysState) : SysState :=
  match a with
  | SysAction.workerStep => wstep jobId fileId text s
  | SysAction.stopCall => stopCallStep jobId s

/-- Run a schedule of interleaved actions. -/
def sysExec (jobId fileId text : String) (sched : List SysAction) (s : SysState) :
    SysState :=
  match sched with
  | [] => s
  | a :: rest => sysExec jobId fileId text rest (sysStep jobId fileId text a s)

/-- Initial state: the session exists with the schema default status
`in-progress` and an empty transcript; the worker is at its first stage. -/
def sysInit (jobId : String) : SysState :=
  { store := [⟨jobId, "in-progress", []⟩], trace := [], wpc := 0,
    stopReturned := false }

/-- Run a schedule from the initial state. -/
def sysRun (jobId fileId text : String) (sched : List SysAction) : SysState :=
  sysExec jobId fileId text sched (sysInit jobId)

/-- Number of chunks in the session's transcript. -/
def transcriptLen (s : SysState) (jobId : String) : Nat :=
  match s.store.find? (fun m => m.jobId = jobId) with
  | some m => m.transcriptionChunks.length
  | none => 0

/-- Claim C1 as stated: under every interleaving, once the stop call has
returned, the session's transcript receives no further chunk. -/
def noAppendAfterStop (jobId fileId text : String) : Prop :=
  ∀ (sched : List SysAction) (i j : Nat), i ≤ j →
    (sysRun jobId fileId text (sched.take i)).stopReturned = true →
    transcriptLen (sysRun jobId fileId text (sched.take j)) jobId =
      transcriptLen (sysRun jobId fileId text (sched.take i)) jobId

/-! ### Observation functions and invariants on the interleaved system -/

/-- The session's stored status, read directly from the store. -/
def statusOf (store : MeetingStore) (jobId : String) : Option String :=
  (store.find? (fun m => m.jobId = jobId)).map (fun m => m.status)

/-- Whether a document for `jobId` exists. -/
def present (store : MeetingStore) (jobId : String) : Bool :=
  (store.find? (fun m => m.jobId = jobId)).isSome

/-- The transcript chunk list, read directly from the store. -/
def chunksOf (store : MeetingStore) (jobId : String) : List String :=
  match store.find? (fun m => m.jobId = jobId) with
  | some m => m.transcriptionChunks
  | none => []

/-- Invariant holding along every run from `sysInit`: the session document
exists, and once the stop call has returned its status is `completed`. -/
def sysInv (jobId : String) (s : SysState) : Prop :=
  present s.store jobId = true ∧
    (s.stopReturned = true → statusOf s.store jobId = some "completed")

/-- Stability once the session is completed and the worker is at its
status check (or already done): the worker's check sees `completed`,
takes the skip path, and never reaches the append. -/
def stableDone (jobId : String) (s : SysState) : Prop :=
  present s.store jobId = true ∧
    statusOf s.store jobId = some "completed" ∧ (s.wpc = 0 ∨ s.wpc = 4)

/-! ## Session stop route (src/backend/routes/meetingRoutes.js lines 44-81)

The revised `/stop` route does not touch the meeting document: it reads
the `jobId` cookie, publishes a persistent termination message
`\x7bjobId, terminate: true\x7d` to the audio queue, and answers
`202 Accepted`; it answers `400` when no cookie is present and `500`
when the queue connection fails.  It never calls `updateMeetingStatus`
and never checks whether the session exists. -/

/-- The termination message sent by the stop route. -/
structure TermMsg where
  jobId : String
  terminate : Bool
  deriving Repr, DecidableEq

/-- Observable outcome of one call to the stop route. -/
structure StopResult where
  httpStatus : Nat
  store : MeetingStore
  published : List TermMsg
  deriving Repr, DecidableEq

/-- Handler `router.post('/stop')` (meetingRoutes.js lines 44-81): `400` without a
`jobId` cookie; otherwise publish the termination message and answer
`202`, or answer `500` if the queue connection/publish fails.  The
meeting store is never consulted or modified. -/
def stopRoute (amqpFails : Bool) (cookieJobId : Option String) (store : MeetingStore) :
    StopResult :=
  match cookieJobId with
  | none => ⟨400, store, []⟩
  | some jobId =>
      if amqpFails then ⟨500, store, []⟩
      else ⟨202, store, [⟨jobId, true⟩]⟩

/-! ## Session-scoped vector retrieval (src/unnamed/part_005,
    `queryVectordb.js`, with the payload shapes built by
    `embedTranscriptions.js` and `embedChat.js`)

The similarity ranking of the external index is abstracted by the order
of the point list; the filter semantics is Qdrant's contract for
`search` with `filter: \x7bmust: [\x7bkey: "jobId", match: \x7bvalue\x7d\x7d]\x7d`:
only points whose payload `jobId` equals the filter value are returned,
at most `limit` of them. -/

/-- Payload of a transcription point as built by
`upsertTranscriptionChunks` (embedTranscriptions.js lines 64-74). -/
structure TranPayload where
  jobId : String
  filename : String
  uploadTimestamp : String
  text : String
  summary : String
  deriving Repr, DecidableEq

/-- A stored point of the transcription collection. -/
structure TranPoint where
  id : String
  payload : TranPayload
  deriving Repr, DecidableEq

/-- Payload of a chat point as built by `upsertChatPair`
(embedChat.js lines 75-85). -/
structure ChatPayload where
  jobId : String
  mongoId : String
  userChat : String
  aiChat : String
  timestamp : String
  deriving Repr, DecidableEq

/-- A stored point of the chat collection. -/
structure ChatPoint where
  id : String
  payload : ChatPayload
  deriving Repr, DecidableEq

/-- Qdrant `search` on the transcription collection with the must-match
`jobId` filter, per the Retrieval Index contract. -/
def searchTran (points : List TranPoint) (filterJobId : String) (limit : Nat) :
    List TranPoint :=
  (points.filter (fun p => p.payload.jobId = filterJobId)).take limit

/-- Qdrant `search` on the chat collection with the must-match `jobId`
filter, per the Retrieval Index contract. -/
def searchChat (points : List ChatPoint) (filterJobId : String) (limit : Nat) :
    List ChatPoint :=
  (points.filter (fun p => p.payload.jobId = filterJobId)).take limit

/-- Function `queryTranscriptions` (part_005 lines 130-166): embed the prompt
(returning `[]` if the embedding fails), search the transcription
collection filtered to `jobId`, and return the payloads of the hits. -/
def queryTranscriptions (embedOk : Bool) (points : List TranPoint)
    (userPrompt jobId : String) (limit : Nat) : List TranPayload :=
  if embedOk = false then []
  else (searchTran points jobId limit).map (fun p => p.payload)

/-- Function `queryChats` (part_005 lines 177-213): embed the prompt (returning
`[]` if the embedding fails), search the chat collection filtered to
`jobId`, and return the payloads of the hits. -/
def queryChats (embedOk : Bool) (points : List ChatPoint)
    (userPrompt jobId : String) (limit : Nat) : List ChatPayload :=
  if embedOk = false then []
  else (searchChat points jobId limit).map (fun p => p.payload)

/-! ## Chat orchestrator (src/backend/controllers/chatLLM.js, second
    revision, lines 202-365)

The heartbeat timer writes SSE comment lines (`:heartbeat`), not data
events, so it is not part of the event model.  Note that the chunk guard
in the source is `if (chunk.text)` — a test of the *method* `text`,
which is always truthy — so every yielded chunk is forwarded, including
ones whose text is empty. -/

/-- A server-sent event written to the client: a data fragment carrying
text, or the terminal `stream_end` marker. -/
inductive SSEvent where
  | fragment (text : String)
  | streamEnd
  deriving Repr, DecidableEq

/-- The apology written when `createChatEntry` fails (line 256). -/
def apologySaving : String :=
  "I apologize, but an error occurred while saving your message."

/-- The fallback apology written when no attempt produced a non-empty
response (line 355). -/
def apologyGenerate : String :=
  "I apologize, but I could not generate a response at this time. Please try again later."

/-- The apology written by the outer catch block (line 362). -/
def apologyProcessing : String :=
  "I apologize, but an error occurred while processing your request. Please try again later."

/-- One document of the `chats` collection (chat.model.js): `aiChat` is
optional and set only after generation finishes. -/
structure ChatTurn where
  chatId : Nat
  jobId : String
  userChat : String
  aiChat : Option String
  deriving Repr, DecidableEq

/-- Outcome of one `generateContentStream` call: the full list of yielded
chunk texts, or a throw after yielding some chunks. -/
inductive GenOutcome where
  | ok (chunks : List String)
  | err (partialChunks : List String)
  deriving Repr, DecidableEq

/-- Outcomes of the external calls made by `getLLMStreamResponse`. -/
structure ChatEnv where
  /-- The `Promise.all` of the two retrieval queries resolves
  (`queryTranscriptions` / `queryChats` rethrow index errors). -/
  retrievalOk : Bool
  /-- Whether `createChatEntry` resolves. -/
  createOk : Bool
  /-- Outcome of the first `generateContentStream` call. -/
  attempt1 : GenOutcome
  /-- Outcome of the second call, if one is made. -/
  attempt2 : GenOutcome
  /-- Whether `updateChatEntry` resolves (it rethrows db errors). -/
  updateOk : Bool
  /-- Whether `upsertChatPair` reports success (it catches its own errors and
  returns a flag, which the orchestrator ignores). -/
  upsertChatOk : Bool
  deriving Repr, DecidableEq

/-- Events and state produced by one orchestrator call. -/
structure ChatOutcome where
  events : List SSEvent
  chatStore : List ChatTurn
  genCalls : Nat
  deriving Repr, DecidableEq

/-- Forwarding of a stream's chunks to the client (lines 297-303): each
yielded chunk is written as one data fragment. -/
def writeChunks (chunks : List String) : List SSEvent :=
  chunks.map SSEvent.fragment

/-- Mongo `findByIdAndUpdate` setting `aiChat` on the chat document. -/
def setAnswer (store : List ChatTurn) (chatId : Nat) (answer : String) :
    List ChatTurn :=
  store.map (fun t => if t.chatId = chatId then { t with aiChat := some answer } else t)

/-- Step 6 on a valid response (lines 334-350): update the chat entry and
embed the pair, swallowing their failures, then emit `stream_end`.  When
`updateChatEntry` throws, `upsertChatPair` is skipped and the turn keeps
its null answer. -/
def finishStream (env : ChatEnv) (store1 : List ChatTurn) (chatId : Nat)
    (fullText : String) (events1 : List SSEvent) (calls : Nat) : ChatOutcome :=
  let store2 := if env.updateOk then setAnswer store1 chatId fullText else store1
  ⟨events1 ++ [SSEvent.streamEnd], store2, calls⟩

/-- The second iteration of the retry loop (lines 283-321), reached when
the first attempt threw or produced only whitespace: an error on this
last attempt is rethrown into the outer catch block; an empty response
falls through to the fallback branch (lines 352-358). -/
def secondAttempt (env : ChatEnv) (store1 : List ChatTurn) (chatId : Nat)
    (events1 : List SSEvent) : ChatOutcome :=
  match env.attempt2 with
  | GenOutcome.ok chunks2 =>
      let full2 := String.join chunks2
      if strTrim full2 ≠ "" then
        finishStream env store1 chatId full2 (events1 ++ writeChunks chunks2) 2
      else
        ⟨events1 ++ writeChunks chunks2 ++
            [SSEvent.fragment apologyGenerate, SSEvent.streamEnd], store1, 2⟩
  | GenOutcome.err partial2 =>
      ⟨events1 ++ writeChunks partial2 ++
          [SSEvent.fragment apologyProcessing, SSEvent.streamEnd], store1, 2⟩

/-- Function `getLLMStreamResponse` (chatLLM.js lines 202-365): retrieval, chat
entry creation, the bounded retry loop, and the post-stream update, as a
function of the external outcomes.  Fresh Mongo ids are modelled by the
store length. -/
def getLLMStreamResponse (env : ChatEnv) (store : List ChatTurn)
    (userPrompt jobId : String) : ChatOutcome :=
  if env.retrievalOk = false then
    ⟨[SSEvent.fragment apologyProcessing, SSEvent.streamEnd], store, 0⟩
  else if env.createOk = false then
    ⟨[SSEvent.fragment apologySaving, SSEvent.streamEnd], store, 0⟩
  else
    let chatId := store.length
    let store1 := store ++ [⟨chatId, jobId, userPrompt, none⟩]
    match env.attempt1 with
    | GenOutcome.ok chunks1 =>
        let full1 := String.join chunks1
        if strTrim full1 ≠ "" then
          finishStream env store1 chatId full1 (writeChunks chunks1) 1
        else
          secondAttempt env store1 chatId (writeChunks chunks1)
    | GenOutcome.err partial1 =>
        secondAttempt env store1 chatId (writeChunks partial1)

/-! ## Ingestion gateway (spec-modelled) -/

/-- Ordered blob-store actions of one gateway call. -/
inductive GAction where
  | put (key : String)
  | del (key : String)
  deriving Repr, DecidableEq

/-- Observable outcome of one `submitChunk` call. -/
structure SubmitResult where
  httpStatus : Nat
  blobs : List String
  queued : List String
  actions : List GAction
  deriving Repr, DecidableEq

/-- Modelled from the spec: the Cloudinary-storing ingestion gateway
revision is absent from `src/` — `storeAudioFile` is declared in
`audio.db.js` but never called, and the `audioRoutes.js` revision under
`src/` inlines the audio bytes into the queue message without storing a
blob, while the current worker expects messages carrying a Cloudinary
`fileId`.  Per §4.2 of the spec, a validated chunk's bytes are stored
under a fresh unique blob key and a job referencing that key is
enqueued; if the enqueue fails after the blob was stored, the gateway
deletes the orphaned blob before returning an error. -/
def submitChunk (storeOk enqueueOk : Bool) (blobs : List String) (key : String) :
    SubmitResult :=
  if storeOk = false then ⟨500, blobs, [], []⟩
  else if enqueueOk then ⟨202, blobs ++ [key], [key], [GAction.put key]⟩
  else ⟨500, blobs, [], [GAction.put key, GAction.del key]⟩

/-! ## Trace observations used by the worker claims -/

/-- Number of blob deletions in an effect trace. -/
def countDeletes (trace : List WEffect) : Nat :=
  (trace.filter (fun e => match e with
    | WEffect.deleteBlob _ => true
    | _ => false)).length

/-- Whether one of the handler's processing steps after the dequeue and
status check fails (fetch, transcription, append, clean, or embed), for
a given environment and meeting store. -/
def stepFails (env : JobEnv) (msg : JobMsg) (store : MeetingStore) : Prop :=
  env.fetchOk = false ∨ env.transcribeThrows ∨ env.transcribeSuccess = false ∨
    (strTrim env.transcribedText ≠ "" ∧
      (appendTranscription env.appendDbFails store msg.jobId env.transcribedText).2
        = false) ∨
    (strTrim env.transcribedText ≠ "" ∧
      (appendTranscription env.appendDbFails store msg.jobId env.transcribedText).2
        = true ∧
      (env.cleanThrows ∨ (env.cleanedChunks.isEmpty = false ∧ env.embedOk = false)))

/-! ## Claim statements formalised as propositions (to be proved or refuted) -/

/-- Claim C4 as stated: the stop operation is an idempotent transition of
the session status to completed (an existing session's status becomes
`completed`), and it fails — does not answer success — when the session
never existed. -/
def stopIdempotentCompleted : Prop :=
  (∀ (j2 : String) (store : MeetingStore),
      statusOf store j2 = some "in-progress" →
      statusOf (stopRoute false (some j2) store).store j2 = some "completed") ∧
  ∀ (j2 : String), (stopRoute false (some j2) []).httpStatus ≠ 202

/-- Claim C10 as stated: when the post-stream persistence of the answer
or the embedding of the chat pair fails, the client still receives the
normal terminal marker with no error fragment, and the chat turn keeps a
null answer text. -/
def c10AsStated : Prop :=
  ∀ (env : ChatEnv) (p j2 : String),
    env.retrievalOk = true → env.createOk = true →
    env.attempt1 = GenOutcome.ok ["Answer."] →
    (env.updateOk = false ∨ env.upsertChatOk = false) →
    (getLLMStreamResponse env [] p j2).events =
        [SSEvent.fragment "Answer.", SSEvent.streamEnd] ∧
      ∀ turn ∈ (getLLMStreamResponse env [] p j2).chatStore, turn.aiChat = none

/-! ### Lemmas about the meeting store and the interleaved system -/


theorem statusOf_pushChunk (store : MeetingStore) (j t q : String) :
    statusOf (pushChunk store j t) q = statusOf store q := by
  induction store with
  | nil => rfl
  | cons m rest ih =>
      by_cases hmj : m.jobId = j
      · by_cases hmq : m.jobId = q
        · have hjq : j = q := by rw [← hmj, hmq]
          simp [pushChunk, statusOf, List.find?, hmj, hmq, hjq]
        · have hjq : ¬ j = q := fun h => hmq (hmj.trans h)
          simp [pushChunk, statusOf, List.find?, hmj, hmq, hjq]
      · by_cases hmq : m.jobId = q
        · have hqj : ¬ q = j := fun h => hmj (hmq.trans h)
          simp [pushChunk, statusOf, List.find?, hmj, hmq, hqj]
        · simpa [pushChunk, statusOf, List.find?, hmj, hmq] using ih

theorem present_pushChunk (store : MeetingStore) (j t q : String) :
    present (pushChunk store j t) q = present store q := by
  induction store with
  | nil => rfl
  | cons m rest ih =>
      by_cases hmj : m.jobId = j
      · by_cases hmq : m.jobId = q
        · have hjq : j = q := by rw [← hmj, hmq]
          simp [pushChunk, present, List.find?, hmj, hmq, hjq]
        · have hjq : ¬ j = q := fun h => hmq (hmj.trans h)
          simp [pushChunk, present, List.find?, hmj, hmq, hjq]
      · by_cases hmq : m.jobId = q
        · have hqj : ¬ q = j := fun h => hmj (hmq.trans h)
          simp [pushChunk, present, List.find?, hmj, hmq, hqj]
        · simpa [pushChunk, present, List.find?, hmj, hmq] using ih

theorem present_setStatus (store : MeetingStore) (j st q : String) :
    present (setStatus store j st) q = present store q := by
  induction store with
  | nil => rfl
  | cons m rest ih =>
      by_cases hmj : m.jobId = j
      · by_cases hmq : m.jobId = q
        · have hjq : j = q := by rw [← hmj, hmq]
          simp [setStatus, present, List.find?, hmj, hmq, hjq]
        · have hjq : ¬ j = q := fun h => hmq (hmj.trans h)
          simp [setStatus, present, List.find?, hmj, hmq, hjq]
      · by_cases hmq : m.jobId = q
        · have hqj : ¬ q = j := fun h => hmj (hmq.trans h)
          simp [setStatus, present, List.find?, hmj, hmq, hqj]
        · simpa [setStatus, present, List.find?, hmj, hmq] using ih

theorem statusOf_setStatus_self (store : MeetingStore) (j st : String)
    (h : present store j = true) :
    statusOf (setStatus store j st) j = some st := by
  induction store with
  | nil => simp [present, List.find?] at h
  | cons m rest ih =>
      by_cases hmj : m.jobId = j
      · simp [setStatus, statusOf, List.find?, hmj]
      · simp only [present, List.find?] at h
        rw [decide_eq_false hmj] at h
        simpa [setStatus, statusOf, List.find?, hmj] using
          ih (by simpa [present] using h)

theorem statusOf_setStatus_ne (store : MeetingStore) (j st q : String)
    (h : q ≠ j) :
    statusOf (setStatus store j st) q = statusOf store q := by
  induction store with
  | nil => rfl
  | cons m rest ih =>
      by_cases hmj : m.jobId = j
      · have hmq : ¬ m.jobId = q := fun hq => h (hq ▸ hmj)
        have hjq : ¬ j = q := fun hjq2 => h hjq2.symm
        simp [setStatus, statusOf, List.find?, hmj, hmq, hjq]
      · by_cases hmq : m.jobId = q
        · have hqj : ¬ q = j := h
          simp [setStatus, statusOf, List.find?, hmj, hmq, hqj]
        · simpa [setStatus, statusOf, List.find?, hmj, hmq] using ih

theorem chunksOf_setStatus (store : MeetingStore) (j st q : String) :
    chunksOf (setStatus store j st) q = chunksOf store q := by
  induction store with
  | nil => rfl
  | cons m rest ih =>
      by_cases hmj : m.jobId = j
      · by_cases hmq : m.jobId = q
        · have hjq : j = q := by rw [← hmj, hmq]
          simp [setStatus, chunksOf, List.find?, hmj, hmq, hjq]
        · have hjq : ¬ j = q := fun h => hmq (hmj.trans h)
          simp [setStatus, chunksOf, List.find?, hmj, hmq, hjq]
      · by_cases hmq : m.jobId = q
        · have hqj : ¬ q = j := fun h => hmj (hmq.trans h)
          simp [setStatus, chunksOf, List.find?, hmj, hmq, hqj]
        · simpa [setStatus, chunksOf, List.find?, hmj, hmq] using ih

theorem transcriptLen_eq_chunksOf (s : SysState) (jobId : String) :
    transcriptLen s jobId = (chunksOf s.store jobId).length := by
  unfold transcriptLen chunksOf
  cases s.store.find? (fun m => m.jobId = jobId) <;> simp

theorem appendTranscription_fst (store : MeetingStore) (j t : String) :
    (appendTranscription false store j t).1 = store ∨
      (appendTranscription false store j t).1 = pushChunk store j t := by
  unfold appendTranscription
  cases store.find? (fun m => m.jobId = j) <;> simp

theorem updateMeetingStatus_fst_of_present (store : MeetingStore) (j st : String)
    (h : present store j = true) :
    (updateMeetingStatus false store j st).1 = setStatus store j st := by
  unfold present at h
  obtain ⟨m, hm⟩ := Option.isSome_iff_exists.mp h
  unfold updateMeetingStatus
  simp [hm]

/-! ### Invariants of the interleaved system -/

theorem wstep_store (j f t : String) (s : SysState) :
    (wstep j f t s).store = s.store ∨
      (wstep j f t s).store = pushChunk s.store j t := by
  unfold wstep
  rcases s with ⟨store, trace, wpc, stop⟩
  rcases wpc with _ | _ | _ | _ | n
  · dsimp only
    split
    · exact Or.inl rfl
    · exact Or.inl rfl
  · exact Or.inl rfl
  · dsimp only
    split
    · exact appendTranscription_fst store j t
    · exact appendTranscription_fst store j t
  · exact Or.inl rfl
  · exact Or.inl rfl

theorem wstep_stopReturned (j f t : String) (s : SysState) :
    (wstep j f t s).stopReturned = s.stopReturned := by
  unfold wstep
  rcases s with ⟨store, trace, wpc, stop⟩
  rcases wpc with _ | _ | _ | _ | n
  · dsimp only
    split <;> rfl
  · rfl
  · dsimp only
    split <;> rfl
  · rfl
  · rfl

theorem statusOf_wstep (j f t : String) (s : SysState) :
    statusOf (wstep j f t s).store j = statusOf s.store j := by
  rcases wstep_store j f t s with h | h <;> rw [h]
  exact statusOf_pushChunk s.store j t j

theorem present_wstep (j f t : String) (s : SysState) :
    present (wstep j f t s).store j = present s.store j := by
  rcases wstep_store j f t s with h | h <;> rw [h]
  exact present_pushChunk s.store j t j

theorem sysStep_inv (j f t : String) (a : SysAction) (s : SysState)
    (h : sysInv j s) : sysInv j (sysStep j f t a s) := by
  obtain ⟨hp, hs⟩ := h
  cases a with
  | workerStep =>
      refine ⟨?_, ?_⟩
      · rw [sysStep, present_wstep]
        exact hp
      · intro hstop
        rw [sysStep, statusOf_wstep]
        exact hs (by rw [sysStep, wstep_stopReturned] at hstop; exact hstop)
  | stopCall =>
      refine ⟨?_, fun _ => ?_⟩
      · show present (stopCallStep j s).store j = true
        unfold stopCallStep
        dsimp only
        rw [updateMeetingStatus_fst_of_present _ _ _ hp, present_setStatus]
        exact hp
      · show statusOf (stopCallStep j s).store j = some "completed"
        unfold stopCallStep
        dsimp only
        rw [updateMeetingStatus_fst_of_present _ _ _ hp]
        exact statusOf_setStatus_self _ _ _ hp

theorem sysExec_inv (j f t : String) (sched : List SysAction) (s : SysState)
    (h : sysInv j s) : sysInv j (sysExec j f t sched s) := by
  induction sched generalizing s with
  | nil => exact h
  | cons a rest ih => exact ih _ (sysStep_inv j f t a s h)

theorem sysInit_inv (j : String) : sysInv j (sysInit j) := by
  refine ⟨?_, ?_⟩
  · simp [sysInit, present, List.find?]
  · intro h
    simp [sysInit] at h

theorem sysStep_stable (j f t : String) (a : SysAction) (s : SysState)
    (h : stableDone j s) :
    stableDone j (sysStep j f t a s) ∧
      chunksOf (sysStep j f t a s).store j = chunksOf s.store j := by
  obtain ⟨hp, hst, hpc⟩ := h
  cases a with
  | workerStep =>
      have hcheck : getMeetingStatus false s.store j = some "completed" := hst
      rcases hpc with h0 | h4
      · have hw : wstep j f t s =
            { s with wpc := 4,
                     trace := s.trace ++ [WEffect.deleteBlob f, WEffect.ack] } := by
          unfold wstep
          rw [h0]
          simp [hcheck]
        refine ⟨⟨?_, ?_, Or.inr ?_⟩, ?_⟩ <;> simp [sysStep, hw, hp, hst]
      · have hw : wstep j f t s = s := by
          unfold wstep
          rw [h4]
        refine ⟨⟨?_, ?_, ?_⟩, ?_⟩ <;> simp [sysStep, hw, hp, hst, h4]
  | stopCall =>
      have hup : (stopCallStep j s).store = setStatus s.store j "completed" := by
        unfold stopCallStep
        dsimp only
        rw [updateMeetingStatus_fst_of_present _ _ _ hp]
      refine ⟨⟨?_, ?_, ?_⟩, ?_⟩
      · show present (stopCallStep j s).store j = true
        rw [hup, present_setStatus]
        exact hp
      · show statusOf (stopCallStep j s).store j = some "completed"
        rw [hup]
        exact statusOf_setStatus_self _ _ _ hp
      · exact hpc
      · show chunksOf (stopCallStep j s).store j = chunksOf s.store j
        rw [hup]
        exact chunksOf_setStatus _ _ _ _

theorem sysExec_stable (j f t : String) (sched : List SysAction) (s : SysState)
    (h : stableDone j s) :
    stableDone j (sysExec j f t sched s) ∧
      chunksOf (sysExec j f t sched s).store j = chunksOf s.store j := by
  induction sched generalizing s with
  | nil => exact ⟨h, rfl⟩
  | cons a rest ih =>
      obtain ⟨h1, h2⟩ := sysStep_stable j f t a s h
      obtain ⟨h3, h4⟩ := ih _ h1
      exact ⟨h3, h4.trans h2⟩

theorem sysExec_append (j f t : String) (l1 l2 : List SysAction) (s : SysState) :
    sysExec j f t (l1 ++ l2) s = sysExec j f t l2 (sysExec j f t l1 s) := by
  induction l1 generalizing s with
  | nil => rfl
  | cons a rest ih =>
      show sysExec j f t (rest ++ l2) (sysStep j f t a s) = _
      exact ih (sysStep j f t a s)

/-! ### Lemmas about the worker's path functions -/

theorem countDeletes_failPath (env : JobEnv) (store : MeetingStore) (f : String)
    (hdel : env.deleteFails = false) :
    countDeletes (failPath env store f).2 = 1 := by
  unfold failPath
  rw [hdel]
  simp [countDeletes]

theorem countDeletes_finishPath (env : JobEnv) (store : MeetingStore) (f : String)
    (hdel : env.deleteFails = false) :
    countDeletes (finishPath env store f).2 = 1 := by
  unfold finishPath
  rw [hdel]
  simp [countDeletes]

theorem countDeletes_cleanEmbedPath (env : JobEnv) (store : MeetingStore) (f : String)
    (hdel : env.deleteFails = false) :
    countDeletes (cleanEmbedPath env store f).2 = 1 := by
  unfold cleanEmbedPath
  by_cases h1 : env.cleanThrows
  · rw [if_pos h1]
    exact countDeletes_failPath env store f hdel
  · rw [if_neg h1]
    by_cases h2 : env.cleanedChunks.isEmpty
    · rw [if_pos h2]
      exact countDeletes_finishPath env store f hdel
    · rw [if_neg h2]
      by_cases h3 : env.embedOk
      · rw [if_pos h3]
        exact countDeletes_finishPath env store f hdel
      · rw [if_neg h3]
        exact countDeletes_failPath env store f hdel

theorem failPath_trace (env : JobEnv) (store : MeetingStore) (f : String)
    (hdel : env.deleteFails = false) :
    (failPath env store f).2 = [WEffect.deleteBlob f, WEffect.nack false] := by
  unfold failPath
  rw [hdel]
  simp

theorem finishPath_trace (env : JobEnv) (store : MeetingStore) (f : String)
    (hdel : env.deleteFails = false) :
    (finishPath env store f).2 = [WEffect.deleteBlob f, WEffect.ack] := by
  unfold finishPath
  rw [hdel]
  simp

theorem failPath_fst (env : JobEnv) (store : MeetingStore) (f : String) :
    (failPath env store f).1 = store := by
  unfold failPath
  split <;> rfl

theorem finishPath_fst (env : JobEnv) (store : MeetingStore) (f : String) :
    (finishPath env store f).1 = store := by
  unfold finishPath
  split <;> rfl

theorem cleanEmbedPath_fst (env : JobEnv) (store : MeetingStore) (f : String) :
    (cleanEmbedPath env store f).1 = store := by
  unfold cleanEmbedPath
  split
  · exact failPath_fst env store f
  · split
    · exact finishPath_fst env store f
    · split
      · exact finishPath_fst env store f
      · exact failPath_fst env store f

theorem appendTranscription_fst_of_true (dbFails : Bool) (store : MeetingStore)
    (j t : String) (h : (appendTranscription dbFails store j t).2 = true) :
    (appendTranscription dbFails store j t).1 = pushChunk store j t := by
  unfold appendTranscription at h ⊢
  cases dbFails
  · cases hF : store.find? (fun m => m.jobId = j) <;> simp [hF] at h ⊢
  · simp at h

theorem appendTranscription_snd_of_present (store : MeetingStore) (j t : String)
    (h : present store j = true) :
    (appendTranscription false store j t).2 = true := by
  unfold present at h
  obtain ⟨m, hm⟩ := Option.isSome_iff_exists.mp h
  unfold appendTranscription
  simp [hm]

/-! ### Claim C1 -/

/-- Claim C1, counterexample: the property "after the stop call returns,
no further chunk is appended to the session's transcript" fails on the
code.  The worker checks the session status once at the start of
processing (worker.js line 290), not immediately before the append
(line 324): in the schedule where the worker passes its check, the stop
call then completes, and the worker goes on to fetch, transcribe and
append, a chunk lands in the transcript after the stop call returned. -/
theorem c1_append_after_stop_counterexample :
    ¬ noAppendAfterStop "j1" "f1" "hello" := by
  intro h
  have h2 := h [SysAction.workerStep, SysAction.stopCall, SysAction.workerStep,
      SysAction.workerStep, SysAction.workerStep] 2 5 (by norm_num) (by decide)
  revert h2
  decide

/-- Claim C1, amended: the worker checks the session status once, at the
start of job processing, before fetching and transcribing — not
immediately before the append.  Consequently the guarantee is only this:
if the stop call has returned while the worker is still at its initial
status check, the check sees `completed`, the job is skipped, and the
transcript never grows afterwards; a stop that lands after the check does
not prevent the in-flight append. -/
theorem c1_stop_gate_amended (j f t : String) (sched : List SysAction) (i k : Nat)
    (hik : i ≤ k)
    (hstop : (sysRun j f t (sched.take i)).stopReturned = true)
    (hpc : (sysRun j f t (sched.take i)).wpc = 0) :
    transcriptLen (sysRun j f t (sched.take k)) j =
      transcriptLen (sysRun j f t (sched.take i)) j := by
  have hinv : sysInv j (sysRun j f t (sched.take i)) :=
    sysExec_inv j f t (sched.take i) (sysInit j) (sysInit_inv j)
  have hstable : stableDone j (sysRun j f t (sched.take i)) :=
    ⟨hinv.1, hinv.2 hstop, Or.inl hpc⟩
  have hsplit : sched.take i ++ (sched.drop i).take (k - i) = sched.take k := by
    rw [← List.take_add, Nat.add_sub_cancel' hik]
  have hcomp : sysRun j f t (sched.take k) =
      sysExec j f t ((sched.drop i).take (k - i)) (sysRun j f t (sched.take i)) := by
    rw [← hsplit]
    unfold sysRun
    rw [sysExec_append]
  rw [hcomp, transcriptLen_eq_chunksOf, transcriptLen_eq_chunksOf]
  exact congrArg List.length
    (sysExec_stable j f t ((sched.drop i).take (k - i)) _ hstable).2

/-- Witness for the amended claim C1, at the schedule where the stop call
runs before the worker's status check: no chunk is ever appended. -/
theorem c1_stop_gate_amended_witness :
    1 ≤ 3 ∧
      (sysRun "j1" "f1" "hello"
        ([SysAction.stopCall, SysAction.workerStep, SysAction.workerStep].take 1)).stopReturned
        = true ∧
      (sysRun "j1" "f1" "hello"
        ([SysAction.stopCall, SysAction.workerStep, SysAction.workerStep].take 1)).wpc = 0 ∧
      transcriptLen (sysRun "j1" "f1" "hello"
        ([SysAction.stopCall, SysAction.workerStep, SysAction.workerStep].take 3)) "j1"
        = transcriptLen (sysRun "j1" "f1" "hello"
        ([SysAction.stopCall, SysAction.workerStep, SysAction.workerStep].take 1)) "j1" :=
  ⟨by norm_num, by decide, by decide,
    c1_stop_gate_amended "j1" "f1" "hello"
      [SysAction.stopCall, SysAction.workerStep, SysAction.workerStep] 1 3
      (by norm_num) (by decide) (by decide)⟩

/-! ### Claim C2 -/

/-- Claim C2: for every consumed job carrying a blob reference, the
consume handler deletes the job's blob exactly once, whatever the
outcome of the external calls — on the obsolete-session skip path, the
success path, and every failure path — provided the delete operation
itself honors its contract (does not throw). -/
theorem c2_blob_deleted_exactly_once (env : JobEnv) (msg : JobMsg)
    (store : MeetingStore) (f : String)
    (hparse : msg.parseOk = true) (hfile : msg.fileId = some f)
    (hdel : env.deleteFails = false) :
    countDeletes (processJob env msg store).2 = 1 := by
  unfold processJob
  rw [hparse, hfile]
  rw [if_neg (by simp : ¬ (true = false))]
  by_cases hst : getMeetingStatus env.statusLookupFails store msg.jobId = some "completed"
  · rw [if_pos hst]
    dsimp only
    rw [hdel]
    simp [countDeletes]
  · rw [if_neg hst]
    dsimp only
    by_cases hf : env.fetchOk = false
    · rw [if_pos hf]
      exact countDeletes_failPath env store f hdel
    · rw [if_neg hf]
      by_cases ht1 : env.transcribeThrows
      · rw [if_pos ht1]
        exact countDeletes_failPath env store f hdel
      · rw [if_neg ht1]
        by_cases ht2 : env.transcribeSuccess = false
        · rw [if_pos ht2]
          exact countDeletes_failPath env store f hdel
        · rw [if_neg ht2]
          by_cases hne : strTrim env.transcribedText ≠ ""
          · rw [if_pos hne]
            rcases hA : appendTranscription env.appendDbFails store msg.jobId
                env.transcribedText with ⟨st1, b⟩
            cases b
            · exact countDeletes_failPath env st1 f hdel
            · exact countDeletes_cleanEmbedPath env st1 f hdel
          · rw [if_neg hne]
            exact countDeletes_finishPath env store f hdel

/-- Witness for claim C2 at a concrete job and environment. -/
theorem c2_blob_deleted_exactly_once_witness :
    (⟨true, "j1", some "f1"⟩ : JobMsg).parseOk = true ∧
      (⟨true, "j1", some "f1"⟩ : JobMsg).fileId = some "f1" ∧
      (⟨false, true, false, true, "hello", false, false, ["c1"], true, false⟩
          : JobEnv).deleteFails = false ∧
      countDeletes (processJob
        ⟨false, true, false, true, "hello", false, false, ["c1"], true, false⟩
        ⟨true, "j1", some "f1"⟩ [⟨"j1", "in-progress", []⟩]).2 = 1 :=
  ⟨rfl, rfl, rfl,
    c2_blob_deleted_exactly_once
      ⟨false, true, false, true, "hello", false, false, ["c1"], true, false⟩
      ⟨true, "j1", some "f1"⟩ [⟨"j1", "in-progress", []⟩] "f1" rfl rfl rfl⟩

/-! ### Claim C3 -/

/-- Claim C3: when any processing step after the dequeue fails (fetch,
transcription, append, clean, or embed), the handler deletes the blob
and negatively acknowledges without requeueing — the effect trace is
exactly one blob delete followed by `nack(requeue := false)`, with no
acknowledgement, so the job is dropped permanently and never retried. -/
theorem c3_failure_drops_job_no_requeue (env : JobEnv) (msg : JobMsg)
    (store : MeetingStore) (f : String)
    (hparse : msg.parseOk = true) (hfile : msg.fileId = some f)
    (hdel : env.deleteFails = false)
    (hstatus : getMeetingStatus env.statusLookupFails store msg.jobId ≠ some "completed")
    (hfail : stepFails env msg store) :
    (processJob env msg store).2 = [WEffect.deleteBlob f, WEffect.nack false] := by
  unfold processJob
  rw [hparse, hfile]
  rw [if_neg (by simp : ¬ (true = false))]
  rw [if_neg hstatus]
  try dsimp only
  by_cases hf : env.fetchOk = false
  · rw [if_pos hf]
    exact failPath_trace env store f hdel
  · rw [if_neg hf]
    by_cases ht1 : env.transcribeThrows
    · rw [if_pos ht1]
      exact failPath_trace env store f hdel
    · rw [if_neg ht1]
      by_cases ht2 : env.transcribeSuccess = false
      · rw [if_pos ht2]
        exact failPath_trace env store f hdel
      · rw [if_neg ht2]
        by_cases hne : strTrim env.transcribedText ≠ ""
        · rw [if_pos hne]
          rcases hA : appendTranscription env.appendDbFails store msg.jobId
              env.transcribedText with ⟨st1, b⟩
          cases b
          · exact failPath_trace env st1 f hdel
          · dsimp only
            -- the append succeeded, so stepFails must name a later step
            have hlate : env.cleanThrows = true ∨
                (env.cleanedChunks.isEmpty = false ∧ env.embedOk = false) := by
              rcases hfail with h | h | h | ⟨h1, h2⟩ | ⟨h1, h2, h3⟩
              · exact absurd h hf
              · exact absurd h ht1
              · exact absurd h ht2
              · rw [hA] at h2
                simp at h2
              · exact h3
            unfold cleanEmbedPath
            rcases hlate with hcl | ⟨hcne, hemb⟩
            · rw [if_pos hcl]
              exact failPath_trace env st1 f hdel
            · by_cases hcl : env.cleanThrows
              · rw [if_pos hcl]
                exact failPath_trace env st1 f hdel
              · rw [if_neg hcl, if_neg (by simp [hcne] : ¬ env.cleanedChunks.isEmpty = true),
                    if_neg (by simp [hemb] : ¬ env.embedOk = true)]
                exact failPath_trace env st1 f hdel
        · -- empty transcription text: no step can fail, contradiction
          exfalso
          rcases hfail with h | h | h | ⟨h1, h2⟩ | ⟨h1, h2, h3⟩
          · exact hf h
          · exact ht1 h
          · exact ht2 h
          · exact hne h1
          · exact hne h1

/-- Witness for claim C3, at a job whose audio fetch fails. -/
theorem c3_failure_drops_job_no_requeue_witness :
    getMeetingStatus false [⟨"j1", "in-progress", []⟩] "j1" ≠ some "completed" ∧
      stepFails ⟨false, false, false, true, "hello", false, false, [], true, false⟩
        ⟨true, "j1", some "f1"⟩ [⟨"j1", "in-progress", []⟩] ∧
      (processJob ⟨false, false, false, true, "hello", false, false, [], true, false⟩
          ⟨true, "j1", some "f1"⟩ [⟨"j1", "in-progress", []⟩]).2 =
        [WEffect.deleteBlob "f1", WEffect.nack false] :=
  ⟨by decide, Or.inl rfl,
    c3_failure_drops_job_no_requeue
      ⟨false, false, false, true, "hello", false, false, [], true, false⟩
      ⟨true, "j1", some "f1"⟩ [⟨"j1", "in-progress", []⟩] "f1"
      rfl rfl rfl (by decide) (Or.inl rfl)⟩

/-! ### Claim C4 -/

/-- Claim C4, counterexample: the stop route is not an idempotent
transition of the session status to completed.  At a store holding an
active session `s1`, the route answers `202` but leaves the status at
`in-progress`, and at an empty store with cookie `ghost` it also answers
`202` rather than failing with a not-found error. -/
theorem c4_stop_idempotent_transition_counterexample :
    ¬ stopIdempotentCompleted := by
  intro h
  have h1 := h.1 "s1" [⟨"s1", "in-progress", []⟩] (by decide)
  revert h1
  decide

/-- Claim C4, amended: the stop route never touches the session status.
Given any `jobId` cookie it publishes one persistent termination message
to the audio queue and answers `202 Accepted`, leaving the meeting store
unchanged, whether or not the session exists — so repeated calls behave
identically and a never-existing session is not reported.  Without a
cookie it answers `400`, and a queue failure yields `500` with nothing
published. -/
theorem c4_stop_route_amended (amqpFails : Bool) (j2 : String) (store : MeetingStore) :
    (stopRoute false (some j2) store).httpStatus = 202 ∧
      (stopRoute false (some j2) store).store = store ∧
      (stopRoute false (some j2) store).published = [⟨j2, true⟩] ∧
      (stopRoute amqpFails none store).httpStatus = 400 ∧
      (stopRoute amqpFails none store).published = [] ∧
      (stopRoute true (some j2) store).httpStatus = 500 :=
  ⟨rfl, rfl, rfl, rfl, rfl, rfl⟩

/-! ### Claim C5 -/

/-- Claim C5: the generation call is retried from scratch with a bound of
two attempts in total (the bound holds for every environment), and when
both attempts yield empty content the client receives exactly one
fallback apology fragment followed by the terminal marker.  The handler
is a total function of the outcome environment, so no exception escapes
on any path. -/
theorem c5_empty_generation_fallback (env : ChatEnv) (store : List ChatTurn)
    (p j2 : String)
    (hr : env.retrievalOk = true) (hc : env.createOk = true)
    (h1 : env.attempt1 = GenOutcome.ok []) (h2 : env.attempt2 = GenOutcome.ok []) :
    (getLLMStreamResponse env store p j2).events =
        [SSEvent.fragment apologyGenerate, SSEvent.streamEnd] ∧
      (getLLMStreamResponse env store p j2).genCalls = 2 ∧
      ∀ (env2 : ChatEnv) (store2 : List ChatTurn) (p2 j3 : String),
        (getLLMStreamResponse env2 store2 p2 j3).genCalls ≤ 2 := by
  refine ⟨?_, ?_, ?_⟩
  · unfold getLLMStreamResponse
    rw [hr, hc, h1]
    simp [secondAttempt, h2, writeChunks, strTrim]
  · unfold getLLMStreamResponse
    rw [hr, hc, h1]
    simp [secondAttempt, h2, writeChunks, strTrim]
  · intro env2 store2 p2 j3
    unfold getLLMStreamResponse
    by_cases hr2 : env2.retrievalOk = false
    · rw [if_pos hr2]
      norm_num
    · rw [if_neg hr2]
      by_cases hc2 : env2.createOk = false
      · rw [if_pos hc2]
        norm_num
      · rw [if_neg hc2]
        cases env2.attempt1 with
        | ok chunks1 =>
            dsimp only
            split
            · simp [finishStream]
            · unfold secondAttempt
              cases env2.attempt2 with
              | ok chunks2 =>
                  dsimp only
                  split
                  · simp [finishStream]
                  · simp
              | err partial2 => simp
        | err partial1 =>
            unfold secondAttempt
            cases env2.attempt2 with
            | ok chunks2 =>
                dsimp only
                split
                · simp [finishStream]
                · simp
            | err partial2 => simp

/-- Witness for claim C5 at a concrete environment with two empty
generation attempts. -/
theorem c5_empty_generation_fallback_witness :
    (getLLMStreamResponse
        ⟨true, true, GenOutcome.ok [], GenOutcome.ok [], true, true⟩ [] "q" "s1").events =
        [SSEvent.fragment apologyGenerate, SSEvent.streamEnd] ∧
      (getLLMStreamResponse
        ⟨true, true, GenOutcome.ok [], GenOutcome.ok [], true, true⟩ [] "q" "s1").genCalls
        = 2 :=
  ⟨(c5_empty_generation_fallback
      ⟨true, true, GenOutcome.ok [], GenOutcome.ok [], true, true⟩ [] "q" "s1"
      rfl rfl rfl rfl).1,
    (c5_empty_generation_fallback
      ⟨true, true, GenOutcome.ok [], GenOutcome.ok [], true, true⟩ [] "q" "s1"
      rfl rfl rfl rfl).2.1⟩

/-! ### Claim C6 -/

/-- Claim C6: both chat retrievals — the transcript search and the
chat-history search — return only payloads whose `jobId` equals the
queried session id; no hit tagged with a different session is ever
returned, for every store, prompt, and limit. -/
theorem c6_retrieval_session_scoped (embedOk : Bool) (tpoints : List TranPoint)
    (cpoints : List ChatPoint) (p j2 : String) (lim1 lim2 : Nat) :
    (∀ pay ∈ queryTranscriptions embedOk tpoints p j2 lim1, pay.jobId = j2) ∧
      (∀ pay ∈ queryChats embedOk cpoints p j2 lim2, pay.jobId = j2) := by
  constructor
  · intro pay hmem
    unfold queryTranscriptions searchTran at hmem
    by_cases he : embedOk = false
    · rw [if_pos he] at hmem
      simp at hmem
    · rw [if_neg he] at hmem
      obtain ⟨pt, hpt, hpay⟩ := List.mem_map.mp hmem
      have hpt2 := List.take_subset _ _ hpt
      have hf := List.mem_filter.mp hpt2
      rw [← hpay]
      simpa using hf.2
  · intro pay hmem
    unfold queryChats searchChat at hmem
    by_cases he : embedOk = false
    · rw [if_pos he] at hmem
      simp at hmem
    · rw [if_neg he] at hmem
      obtain ⟨pt, hpt, hpay⟩ := List.mem_map.mp hmem
      have hpt2 := List.take_subset _ _ hpt
      have hf := List.mem_filter.mp hpt2
      rw [← hpay]
      simpa using hf.2

/-- Witness for claim C6 at a two-session store: the hit returned for
session `s1` carries `jobId = s1`. -/
theorem c6_retrieval_session_scoped_witness :
    (⟨"s1", "f", "t", "text", "sum"⟩ : TranPayload) ∈
        queryTranscriptions true
          [⟨"p1", ⟨"s1", "f", "t", "text", "sum"⟩⟩,
           ⟨"p2", ⟨"s2", "f", "t", "other", "sum"⟩⟩] "q" "s1" 5 ∧
      (⟨"s1", "f", "t", "text", "sum"⟩ : TranPayload).jobId = "s1" :=
  ⟨by decide,
    (c6_retrieval_session_scoped true
        [⟨"p1", ⟨"s1", "f", "t", "text", "sum"⟩⟩,
         ⟨"p2", ⟨"s2", "f", "t", "other", "sum"⟩⟩] [] "q" "s1" 5 3).1
      ⟨"s1", "f", "t", "text", "sum"⟩ (by decide)⟩

/-! ### Claim C7 -/

/-- Claim C7 (spec-modelled, the storing gateway revision being absent
from the sources): if the enqueue fails after the audio blob was stored,
the gateway deletes the orphaned blob before returning an error — the
call answers `500`, the blob store does not retain the fresh key, no job
is queued, and the blob-store actions are the put followed by the
compensating delete. -/
theorem c7_enqueue_failure_deletes_blob (blobs : List String) (key : String)
    (hfresh : key ∉ blobs) :
    (submitChunk true false blobs key).httpStatus = 500 ∧
      key ∉ (submitChunk true false blobs key).blobs ∧
      (submitChunk true false blobs key).queued = [] ∧
      (submitChunk true false blobs key).actions = [GAction.put key, GAction.del key] :=
  ⟨rfl, hfresh, rfl, rfl⟩

/-- Witness for claim C7 with a concrete store and fresh key. -/
theorem c7_enqueue_failure_deletes_blob_witness :
    "k1" ∉ ["b0"] ∧
      (submitChunk true false ["b0"] "k1").httpStatus = 500 ∧
      "k1" ∉ (submitChunk true false ["b0"] "k1").blobs ∧
      (submitChunk true false ["b0"] "k1").actions =
        [GAction.put "k1", GAction.del "k1"] :=
  ⟨by decide,
    (c7_enqueue_failure_deletes_blob ["b0"] "k1" (by decide)).1,
    (c7_enqueue_failure_deletes_blob ["b0"] "k1" (by decide)).2.1,
    (c7_enqueue_failure_deletes_blob ["b0"] "k1" (by decide)).2.2.2⟩

/-! ### Claim C8 -/

/-- Claim C8: when a step after the transcript append fails (clean
throwing, or the vector upsert reporting failure on a non-empty chunk
list), the appended chunk is not rolled back — the final store is the
original store with the chunk pushed, while the job's blob is deleted
and its message nacked without requeue. -/
theorem c8_append_survives_late_failure (env : JobEnv) (msg : JobMsg)
    (store : MeetingStore) (f : String)
    (hparse : msg.parseOk = true) (hfile : msg.fileId = some f)
    (hdel : env.deleteFails = false)
    (hstatus : getMeetingStatus env.statusLookupFails store msg.jobId ≠ some "completed")
    (hf : env.fetchOk = true) (ht1 : env.transcribeThrows = false)
    (ht2 : env.transcribeSuccess = true)
    (hne : strTrim env.transcribedText ≠ "")
    (happ : (appendTranscription env.appendDbFails store msg.jobId
        env.transcribedText).2 = true)
    (hlate : env.cleanThrows = true ∨
        (env.cleanedChunks.isEmpty = false ∧ env.embedOk = false)) :
    (processJob env msg store).1 = pushChunk store msg.jobId env.transcribedText ∧
      (processJob env msg store).2 = [WEffect.deleteBlob f, WEffect.nack false] := by
  have hpush := appendTranscription_fst_of_true env.appendDbFails store msg.jobId
      env.transcribedText happ
  unfold processJob
  rw [hparse, hfile]
  rw [if_neg (by simp : ¬ (true = false))]
  rw [if_neg hstatus]
  try dsimp only
  rw [if_neg (by simp [hf] : ¬ env.fetchOk = false)]
  rw [if_neg (by simp [ht1] : ¬ env.transcribeThrows = true)]
  rw [if_neg (by simp [ht2] : ¬ env.transcribeSuccess = false)]
  rw [if_pos hne]
  rcases hA : appendTranscription env.appendDbFails store msg.jobId
      env.transcribedText with ⟨st1, b⟩
  have hb : b = true := by rw [hA] at happ; exact happ
  have hst1 : st1 = pushChunk store msg.jobId env.transcribedText := by
    rw [hA] at hpush; exact hpush
  subst hb
  dsimp only
  constructor
  · rw [cleanEmbedPath_fst]
    exact hst1
  · unfold cleanEmbedPath
    rcases hlate with hcl | ⟨hcne, hemb⟩
    · rw [if_pos hcl]
      exact failPath_trace env st1 f hdel
    · by_cases hcl : env.cleanThrows
      · rw [if_pos hcl]
        exact failPath_trace env st1 f hdel
      · rw [if_neg hcl, if_neg (by simp [hcne] : ¬ env.cleanedChunks.isEmpty = true),
            if_neg (by simp [hemb] : ¬ env.embedOk = true)]
        exact failPath_trace env st1 f hdel

/-- Witness for claim C8, at a job whose clean step throws after a
successful append. -/
theorem c8_append_survives_late_failure_witness :
    (appendTranscription false [⟨"j1", "in-progress", []⟩] "j1" "hello").2 = true ∧
      strTrim "hello" ≠ "" ∧
      (processJob ⟨false, true, false, true, "hello", false, true, [], true, false⟩
          ⟨true, "j1", some "f1"⟩ [⟨"j1", "in-progress", []⟩]).1 =
        pushChunk [⟨"j1", "in-progress", []⟩] "j1" "hello" ∧
      (processJob ⟨false, true, false, true, "hello", false, true, [], true, false⟩
          ⟨true, "j1", some "f1"⟩ [⟨"j1", "in-progress", []⟩]).2 =
        [WEffect.deleteBlob "f1", WEffect.nack false] :=
  ⟨by decide, by decide,
    (c8_append_survives_late_failure
      ⟨false, true, false, true, "hello", false, true, [], true, false⟩
      ⟨true, "j1", some "f1"⟩ [⟨"j1", "in-progress", []⟩] "f1"
      rfl rfl rfl (by decide) rfl rfl rfl (by decide) (by decide) (Or.inl rfl)).1,
    (c8_append_survives_late_failure
      ⟨false, true, false, true, "hello", false, true, [], true, false⟩
      ⟨true, "j1", some "f1"⟩ [⟨"j1", "in-progress", []⟩] "f1"
      rfl rfl rfl (by decide) rfl rfl rfl (by decide) (by decide) (Or.inl rfl)).2⟩

/-! ### Claim C9 -/

/-- Claim C9: a failed session-status lookup yields `null` rather than an
exception, and since `null` is not the string `completed` the handler
proceeds to process the job in full — the transcript is appended, the
blob deleted, and the message acknowledged, exactly as for an active
session.  The completed-session gate fails open on lookup errors. -/
theorem c9_status_gate_fails_open (env : JobEnv) (msg : JobMsg)
    (store : MeetingStore) (f : String)
    (hparse : msg.parseOk = true) (hfile : msg.fileId = some f)
    (hdel : env.deleteFails = false)
    (hlookup : env.statusLookupFails = true)
    (hf : env.fetchOk = true) (ht1 : env.transcribeThrows = false)
    (ht2 : env.transcribeSuccess = true)
    (hne : strTrim env.transcribedText ≠ "")
    (hpresent : present store msg.jobId = true)
    (happdb : env.appendDbFails = false)
    (hcl : env.cleanThrows = false) (hemb : env.embedOk = true) :
    getMeetingStatus env.statusLookupFails store msg.jobId = none ∧
      (processJob env msg store).1 = pushChunk store msg.jobId env.transcribedText ∧
      (processJob env msg store).2 = [WEffect.deleteBlob f, WEffect.ack] := by
  have hgms : getMeetingStatus env.statusLookupFails store msg.jobId = none := by
    unfold getMeetingStatus
    rw [hlookup]
    simp
  refine ⟨hgms, ?_⟩
  have happ : (appendTranscription env.appendDbFails store msg.jobId
      env.transcribedText).2 = true := by
    rw [happdb]
    exact appendTranscription_snd_of_present store msg.jobId env.transcribedText hpresent
  have hpush := appendTranscription_fst_of_true env.appendDbFails store msg.jobId
      env.transcribedText happ
  unfold processJob
  rw [hparse, hfile]
  rw [if_neg (by simp : ¬ (true = false))]
  rw [if_neg (by simp [hgms] : ¬ getMeetingStatus env.statusLookupFails store msg.jobId
      = some "completed")]
  try dsimp only
  rw [if_neg (by simp [hf] : ¬ env.fetchOk = false)]
  rw [if_neg (by simp [ht1] : ¬ env.transcribeThrows = true)]
  rw [if_neg (by simp [ht2] : ¬ env.transcribeSuccess = false)]
  rw [if_pos hne]
  rcases hA : appendTranscription env.appendDbFails store msg.jobId
      env.transcribedText with ⟨st1, b⟩
  have hb : b = true := by rw [hA] at happ; exact happ
  have hst1 : st1 = pushChunk store msg.jobId env.transcribedText := by
    rw [hA] at hpush; exact hpush
  subst hb
  dsimp only
  constructor
  · rw [cleanEmbedPath_fst]
    exact hst1
  · unfold cleanEmbedPath
    rw [if_neg (by simp [hcl] : ¬ env.cleanThrows = true)]
    by_cases hie : env.cleanedChunks.isEmpty
    · rw [if_pos hie]
      exact finishPath_trace env st1 f hdel
    · rw [if_neg hie, if_pos hemb]
      exact finishPath_trace env st1 f hdel

/-- Witness for claim C9, at a job processed while the status lookup
fails. -/
theorem c9_status_gate_fails_open_witness :
    strTrim "hello" ≠ "" ∧
      present [⟨"j1", "in-progress", []⟩] "j1" = true ∧
      getMeetingStatus true [⟨"j1", "in-progress", []⟩] "j1" = none ∧
      (processJob ⟨true, true, false, true, "hello", false, false, ["c1"], true, false⟩
          ⟨true, "j1", some "f1"⟩ [⟨"j1", "in-progress", []⟩]).2 =
        [WEffect.deleteBlob "f1", WEffect.ack] :=
  ⟨by decide, by decide,
    (c9_status_gate_fails_open
      ⟨true, true, false, true, "hello", false, false, ["c1"], true, false⟩
      ⟨true, "j1", some "f1"⟩ [⟨"j1", "in-progress", []⟩] "f1"
      rfl rfl rfl rfl rfl rfl rfl (by decide) (by decide) rfl rfl rfl).1,
    (c9_status_gate_fails_open
      ⟨true, true, false, true, "hello", false, false, ["c1"], true, false⟩
      ⟨true, "j1", some "f1"⟩ [⟨"j1", "in-progress", []⟩] "f1"
      rfl rfl rfl rfl rfl rfl rfl (by decide) (by decide) rfl rfl rfl).2.2⟩

/-! ### Claim C10 -/

/-- Claim C10, counterexample: it is not true that every post-stream
failure leaves the chat turn with a null answer.  When the turn update
succeeds and only the chat-pair embedding fails, the failure is indeed
swallowed and the client sees the normal terminal marker, but the turn
already carries the generated answer, not null. -/
theorem c10_swallowed_update_counterexample : ¬ c10AsStated := by
  intro h
  have h2 := (h ⟨true, true, GenOutcome.ok ["Answer."], GenOutcome.ok [], true, false⟩
      "q" "s1" rfl rfl rfl (Or.inr rfl)).2
  revert h2
  decide

/-- Claim C10, amended: after a successfully streamed answer the client
always receives the data fragments followed by the normal terminal
marker and no error fragment, whatever the outcome of the post-stream
persistence and embedding; the chat turn retains its null answer exactly
when the turn update itself fails, and carries the persisted answer when
the update succeeds (even if the subsequent embedding fails). -/
theorem c10_post_stream_failure_amended (env : ChatEnv) (store : List ChatTurn)
    (p j2 : String) (chunks : List String)
    (hr : env.retrievalOk = true) (hc : env.createOk = true)
    (h1 : env.attempt1 = GenOutcome.ok chunks)
    (hne : strTrim (String.join chunks) ≠ "") :
    (getLLMStreamResponse env store p j2).events =
        writeChunks chunks ++ [SSEvent.streamEnd] ∧
      (getLLMStreamResponse env store p j2).genCalls = 1 ∧
      (env.updateOk = false →
        (getLLMStreamResponse env store p j2).chatStore =
          store ++ [⟨store.length, j2, p, none⟩]) ∧
      (env.updateOk = true →
        (getLLMStreamResponse env store p j2).chatStore =
          setAnswer (store ++ [⟨store.length, j2, p, none⟩]) store.length
            (String.join chunks)) := by
  unfold getLLMStreamResponse
  rw [hr, hc, h1]
  rw [if_neg (by simp : ¬ (true = false)), if_neg (by simp : ¬ (true = false))]
  dsimp only
  rw [if_pos hne]
  unfold finishStream
  refine ⟨rfl, rfl, ?_, ?_⟩
  · intro hu
    simp [hu]
  · intro hu
    simp [hu]

/-- Witness for the amended claim C10, with a failing turn update: the
stream ends normally and the turn keeps its null answer. -/
theorem c10_post_stream_failure_amended_witness :
    strTrim (String.join ["Answer."]) ≠ "" ∧
      (getLLMStreamResponse
          ⟨true, true, GenOutcome.ok ["Answer."], GenOutcome.ok [], false, true⟩
          [] "q" "s1").events =
        writeChunks ["Answer."] ++ [SSEvent.streamEnd] ∧
      (getLLMStreamResponse
          ⟨true, true, GenOutcome.ok ["Answer."], GenOutcome.ok [], false, true⟩
          [] "q" "s1").chatStore = [⟨0, "s1", "q", none⟩] :=
  ⟨by decide,
    (c10_post_stream_failure_amended
      ⟨true, true, GenOutcome.ok ["Answer."], GenOutcome.ok [], false, true⟩
      [] "q" "s1" ["Answer."] rfl rfl rfl (by decide)).1,
    (c10_post_stream_failure_amended
      ⟨true, true, GenOutcome.ok ["Answer."], GenOutcome.ok [], false, true⟩
      [] "q" "s1" ["Answer."] rfl rfl rfl (by decide)).2.2.1 rfl⟩

end Concize
